import Mathlib

/-!
Verification of the rule / target / settings subsystem (`rules.c`) of the
build-description interpreter.

The C code is shallowly embedded as explicit state passing:

* heap-allocated, reference-counted shared objects (argument lists,
  procedures, action templates) become ids (`Nat`) into a `RcHeap`
  recording each id's reference count and whether it is still allocated;
* each module's rule table becomes a partial map keyed by the pair
  (module id, rule name); the root/global module is module id `0`;
* a `RULE*` pointer becomes the key of the slot it points at, and reading
  through the pointer becomes a table lookup at that key;
* C strings become `List Char` (for rule/module names, where the
  `strncat` byte limits matter) or `String` (for symbols and targets);
* the variable environment collaborator becomes a function
  `String → List String` updated with `Function.update`.

Collaborators that live outside `rules.c` (the hash-table service, the
variable environment's `var_swap`, `parse_refer`/`parse_free`,
`root_module`, the list utilities and the string interner) are modelled
from their documented interfaces;  everything else is translated from
`rules.c` directly.
-/

/-- A heap of reference-counted shared objects, identified by `Nat` ids.
`rc i` is the current reference count of object `i`, `alive i` records
whether object `i` is still allocated (not yet freed), and `next` is the
next fresh id. -/
structure RcHeap where
  rc : Nat → Int
  alive : Nat → Bool
  next : Nat

/-- The empty heap: no object allocated yet. -/
def RcHeap.empty : RcHeap :=
  { rc := fun _ => 0, alive := fun _ => false, next := 0 }

/-- Allocate a fresh object with reference count 0 (the C pattern
`malloc(...); r->reference_count = 0;`). -/
def RcHeap.alloc (h : RcHeap) : Nat × RcHeap :=
  (h.next,
   { rc := Function.update h.rc h.next 0,
     alive := Function.update h.alive h.next true,
     next := h.next + 1 })

/-- `++a->reference_count` (the `*_refer` functions). -/
def RcHeap.refer (h : RcHeap) (i : Nat) : RcHeap :=
  { h with rc := Function.update h.rc i (h.rc i + 1) }

/-- `if (--a->reference_count <= 0) { ... free(a); }` (the `*_free`
functions): decrement the count, and deallocate the object when the
decremented count is ≤ 0. -/
def RcHeap.free (h : RcHeap) (i : Nat) : RcHeap :=
  { h with
    rc := Function.update h.rc i (h.rc i - 1),
    alive := Function.update h.alive i
      (if h.rc i - 1 ≤ 0 then false else h.alive i) }

/-- `if (x) refer(x);` for a nullable object handle. -/
def RcHeap.optRefer (h : RcHeap) : Option Nat → RcHeap
  | none => h
  | some i => h.refer i

/-- `if (x) free(x);` for a nullable object handle. -/
def RcHeap.optFree (h : RcHeap) : Option Nat → RcHeap
  | none => h
  | some i => h.free i

/-- The `RULE` record of `rules.c`: name, owning module, and nullable
shared handles to the procedure, the argument list and the action
template, plus the `exported` flag.  Handles are ids into the
corresponding heaps of the ambient state. -/
structure RULE where
  name : List Char
  module : Nat
  procedure : Option Nat
  arguments : Option Nat
  actions : Option Nat
  exported : Bool
deriving DecidableEq, Repr, Inhabited

/-- Payload of a `rule_actions` object (`actions_new` copies the command
string and stores the bindlist and flags; the contents are opaque to the
reference-counting logic). -/
structure ActionsData where
  command : String
  bindlist : List String
  flags : Int
deriving DecidableEq, Repr, Inhabited

/-- The mutable global state of the rule registry: all per-module rule
tables (keyed by module id and rule name), the module-name view of the
modules collaborator, and the three reference-counted heaps.  The
root/global module is module id `0`.  `parseRulename` models the
`rulename` field of `PARSE` procedure objects, `argsData` the
list-of-lists payload of argument lists, `actsData` the payload of
action templates. -/
structure St where
  rules : Nat × List Char → Option RULE
  moduleName : Nat → List Char
  argsH : RcHeap
  argsData : Nat → List (List String)
  parseH : RcHeap
  parseRulename : Nat → Option (List Char)
  actsH : RcHeap
  actsData : Nat → ActionsData

/-- `root_module()`. Modelled from the spec: `modules.c` is not part of
the given source; the spec's root/global module is a distinguished
module, modelled as module id `0`. -/
def root_module : Nat := 0

/-- `args_new()`: a fresh argument list with reference count 0 and an
empty list-of-lists (`lol_init`). -/
def args_new (st : St) : Nat × St :=
  let p := st.argsH.alloc
  (p.1, { st with argsH := p.2, argsData := Function.update st.argsData p.1 [] })

/-- `args_refer()`. -/
def args_refer (st : St) (a : Nat) : St :=
  { st with argsH := st.argsH.refer a }

/-- `args_free()`: release one reference; frees the object (and its
list-of-lists) when the count drops to ≤ 0. -/
def args_free (st : St) (a : Nat) : St :=
  { st with argsH := st.argsH.free a }

/-- `parse_refer()`. Modelled from the spec: the procedure object lives
in the parser (`parse.c`, not part of the given source); per spec §4.2
all shared objects follow the same reference-counting contract. -/
def parse_refer (st : St) (p : Nat) : St :=
  { st with parseH := st.parseH.refer p }

/-- `parse_free()`. Modelled from the spec: same contract as `args_free`
(decrement, release at ≤ 0). -/
def parse_free (st : St) (p : Nat) : St :=
  { st with parseH := st.parseH.free p }

/-- `actions_refer()`. -/
def actions_refer (st : St) (a : Nat) : St :=
  { st with actsH := st.actsH.refer a }

/-- `actions_free()`. -/
def actions_free (st : St) (a : Nat) : St :=
  { st with actsH := st.actsH.free a }

/-- `actions_new()`: fresh action template with reference count 0,
holding a copy of the command (`copystr`), the bindlist and the flags. -/
def actions_new (command : String) (bindlist : List String) (flags : Int) (st : St) : Nat × St :=
  let p := st.actsH.alloc
  let d : ActionsData := { command := command, bindlist := bindlist, flags := flags }
  (p.1, { st with actsH := p.2, actsData := Function.update st.actsData p.1 d })

/-- The zero-initialized rule record created by `enter_rule` on a miss. -/
def freshRule (rulename : List Char) (target_module : Nat) : RULE :=
  { name := rulename, module := target_module,
    procedure := none, arguments := none, actions := none, exported := false }

/-- `enter_rule()`: get-or-create the rule slot keyed by `rulename` in
`target_module`'s table (`hashenter` on the table collaborator).  On
creation the record is zero-initialized with `module = target_module`.
Returns the record now stored in the slot. -/
def enter_rule (rulename : List Char) (target_module : Nat) (st : St) : RULE × St :=
  match st.rules (target_module, rulename) with
  | some r => (r, st)
  | none =>
      let r := freshRule rulename target_module
      (r, { st with rules := Function.update st.rules (target_module, rulename) (some r) })

/-- `set_rule_body()`: install `(args, procedure)` into the slot at key
`(m, rulename)`.  Faithful to the C ordering: refer the new argument
list, then free the old one, then store; same for the procedure. -/
def set_rule_body (m : Nat) (rulename : List Char) (args : Option Nat)
    (procedure : Option Nat) (st : St) : St :=
  match st.rules (m, rulename) with
  | none => st
  | some r =>
      let st1 := match args with | some a => args_refer st a | none => st
      let st2 := match r.arguments with | some o => args_free st1 o | none => st1
      let st3 := match procedure with | some p => parse_refer st2 p | none => st2
      let st4 := match r.procedure with | some o => parse_free st3 o | none => st3
      let r' := { r with arguments := args, procedure := procedure }
      { st4 with rules := Function.update st4.rules (m, rulename) (some r') }

/-- `set_rule_actions()`: install an action template into the slot at key
`(m, rulename)`, referring the new template before freeing the old. -/
def set_rule_actions (m : Nat) (rulename : List Char) (actions : Option Nat) (st : St) : St :=
  match st.rules (m, rulename) with
  | none => st
  | some r =>
      let st1 := match actions with | some a => actions_refer st a | none => st
      let st2 := match r.actions with | some o => actions_free st1 o | none => st1
      let r' := { r with actions := actions }
      { st2 with rules := Function.update st2.rules (m, rulename) (some r') }

/-- `define_rule()`: fetch/create via `enter_rule`; if the slot's
recorded owning module differs from `src_module`, clear its body and
actions and reassign its owning module to `src_module`.  Returns the
record now stored in the slot. -/
def define_rule (src_module : Nat) (rulename : List Char) (target_module : Nat) (st : St) :
    RULE × St :=
  let p := enter_rule rulename target_module st
  if p.1.module = src_module then p
  else
    let st2 := set_rule_body target_module rulename none none p.2
    let st3 := set_rule_actions target_module rulename none st2
    let r' : RULE :=
      { name := p.1.name, module := src_module, procedure := none, arguments := none,
        actions := none, exported := p.1.exported }
    (r', { st3 with rules := Function.update st3.rules (target_module, rulename) (some r') })

/-- `strncat(dst, src, n)`: append at most `n` characters of `src` to
`dst` (the terminating NUL is not modelled; the capacity of the
destination buffer is NOT enforced by `strncat` itself). -/
def strncat (dst src : List Char) (n : Nat) : List Char :=
  dst ++ src.take n

/-- `global_rule_name()`: the rule's own name if it lives in the root
module, else the concatenation of the module name and the rule name
built by two `strncat` calls into a `char name[4096]` buffer, each call
limited to `sizeof(name) - 1 = 4095` appended characters. -/
def global_rule_name (r : RULE) (st : St) : List Char :=
  if r.module = root_module then r.name
  else strncat (strncat [] (st.moduleName r.module) 4095) r.name 4095

/-- `global_rule()`: the rule itself if already in the root module, else
`define_rule(r->module, global_rule_name(r), root_module())`.  The
result is the key of the global slot (the pointer returned in C). -/
def global_rule (r : RULE) (st : St) : (Nat × List Char) × St :=
  if r.module = root_module then ((r.module, r.name), st)
  else
    let name := global_rule_name r st
    let p := define_rule r.module name root_module st
    ((root_module, name), p.2)

/-- `local->exported = exported;` — update the `exported` flag of the
slot at key `(m, rulename)` in place. -/
def rule_set_exported (m : Nat) (rulename : List Char) (exported : Bool) (st : St) : St :=
  let slot := Option.map (fun r => { r with exported := exported }) (st.rules (m, rulename))
  { st with rules := Function.update st.rules (m, rulename) slot }

/-- `if (procedure->rulename == 0) procedure->rulename = global_rule_name(local);`
— stamp the procedure with the local slot's global rule name, only if it
has never been stamped. -/
def stamp_rulename (procedure : Nat) (m : Nat) (rulename : List Char) (st : St) : St :=
  match st.parseRulename procedure, st.rules (m, rulename) with
  | none, some lr =>
      let pr := Function.update st.parseRulename procedure (some (global_rule_name lr st))
      { st with parseRulename := pr }
  | _, _ => st

/-- The `if (exported) { RULE* global = global_rule(local);
set_rule_body(global, args, procedure); }` step of `new_rule_body`,
reading the local rule through its slot. -/
def export_body (m : Nat) (rulename : List Char) (args : Option Nat) (procedure : Nat)
    (st : St) : St :=
  match st.rules (m, rulename) with
  | none => st
  | some lr =>
      let gp := global_rule lr st
      set_rule_body gp.1.1 gp.1.2 args (some procedure) gp.2

/-- `new_rule_body()`: define the rule locally, record `exported`,
install `(args, procedure)`, stamp the procedure's diagnostic rule name
once, and, if exported, install the same `(args, procedure)` pair into
the mirrored global-module slot. -/
def new_rule_body (m : Nat) (rulename : List Char) (args : Option Nat) (procedure : Nat)
    (exported : Bool) (st : St) : RULE × St :=
  let st1 := (define_rule m rulename m st).2
  let st2 := rule_set_exported m rulename exported st1
  let st3 := set_rule_body m rulename args (some procedure) st2
  let st4 := stamp_rulename procedure m rulename st3
  let st5 := if exported then export_body m rulename args procedure st4 else st4
  ((st5.rules (m, rulename)).getD (freshRule rulename m), st5)

/-- The module-local phase of `new_rule_body` (everything before the
`if (exported)` export step), as a named composition: local
`define_rule`, `exported`-flag update, local `set_rule_body`, procedure
stamping. -/
def local_phase (m : Nat) (rulename : List Char) (args : Option Nat) (procedure : Nat)
    (exported : Bool) (st : St) : St :=
  stamp_rulename procedure m rulename
    (set_rule_body m rulename args (some procedure)
      (rule_set_exported m rulename exported (define_rule m rulename m st).2))

/-- `new_rule_actions()`: define the rule locally, build a fresh action
template, install it locally, and unconditionally mirror it into the
global slot (sharing the single template). -/
def new_rule_actions (m : Nat) (rulename : List Char) (command : String)
    (bindlist : List String) (flags : Int) (st : St) : RULE × St :=
  let st1 := (define_rule m rulename m st).2
  let st2 :=
    match st1.rules (m, rulename) with
    | none => st1
    | some lr =>
        let gp := global_rule lr st1
        let ap := actions_new command bindlist flags gp.2
        let st3 := set_rule_actions m rulename (some ap.1) ap.2
        match st3.rules (m, rulename) with
        | none => st3
        | some lr2 => set_rule_actions gp.1.1 gp.1.2 lr2.actions st3
  ((st2.rules (m, rulename)).getD (freshRule rulename m), st2)

/-- `bindrule()`: lookup-only (`hashcheck`) in `module`'s table; on a
miss, fall back to get-or-create in the root module under the
unqualified name. -/
def bindrule (rulename : List Char) (m : Nat) (st : St) : RULE × St :=
  match st.rules (m, rulename) with
  | some r => (r, st)
  | none => enter_rule rulename root_module st

/-- `import_rule()`: define a rule at `(module, name)` owned by the
source rule's module and share the source's body and actions. -/
def import_rule (source : RULE) (m : Nat) (name : List Char) (st : St) : RULE × St :=
  let st1 := (define_rule source.module name m st).2
  let st2 := set_rule_body m name source.arguments source.procedure st1
  let st3 := set_rule_actions m name source.actions st2
  ((st3.rules (m, name)).getD (freshRule name m), st3)

/-- One `SETTINGS` node: an interned symbol and its value list.  The
`id` identifies the node's storage, so that recycling through the
process-wide free list (`settings_freelist`) is observable. -/
structure SETTINGS where
  id : Nat
  symbol : String
  value : List String
deriving DecidableEq, Repr, Inhabited

/-- The allocator state of the settings component: the process-wide
`settings_freelist` of recycled node storage, and the next fresh node
id for `malloc`. -/
structure SetSt where
  settings_freelist : List Nat
  nextId : Nat
deriving DecidableEq, Repr, Inhabited

/-- `list_append()` of the list collaborator: the old elements followed
by the new ones. -/
def list_append (a b : List String) : List String := a ++ b

/-- The linear scan `for (v = head; v; v = v->next) if (!strcmp(v->symbol, symbol)) break;`
— the first node carrying `symbol`, if any. -/
def settings_find : List SETTINGS → String → Option SETTINGS
  | [], _ => none
  | v :: rest, symbol =>
      if v.symbol = symbol then some v else settings_find rest symbol

/-- In-place mutation of the value of the first node carrying `symbol`
(the node `v` at which the scan of `addsettings` stopped). -/
def settings_update_first : List SETTINGS → String → (List String → List String) → List SETTINGS
  | [], _, _ => []
  | v :: rest, symbol, f =>
      if v.symbol = symbol then { v with value := f v.value } :: rest
      else v :: settings_update_first rest symbol f

/-- `addsettings()`: scan for `symbol`; if absent, take a node from the
free list (else `malloc` a fresh one) and link it as the new head; if
present and `append`, concatenate the new value onto the old
(`list_append`); else free the old value and store the new one. -/
def addsettings (st : SetSt) (head : List SETTINGS) (append : Bool) (symbol : String)
    (value : List String) : SetSt × List SETTINGS :=
  match settings_find head symbol with
  | none =>
      match st.settings_freelist with
      | i :: rest =>
          ({ settings_freelist := rest, nextId := st.nextId },
           { id := i, symbol := symbol, value := value } :: head)
      | [] =>
          ({ settings_freelist := [], nextId := st.nextId + 1 },
           { id := st.nextId, symbol := symbol, value := value } :: head)
  | some _ =>
      if append then (st, settings_update_first head symbol (fun old => list_append old value))
      else (st, settings_update_first head symbol (fun _ => value))

/-- `var_swap()` of the variable environment collaborator.  Modelled
from the spec: `variable.c` is not part of the given source; the spec
specifies its interface as `swap(symbol, value) -> previous_value`. -/
def var_swap (symbol : String) (value : List String) (env : String → List String) :
    List String × (String → List String) :=
  (env symbol, Function.update env symbol value)

/-- `pushsettings()`: for every node in order, swap the node's stored
value with the environment's current value of the node's symbol. -/
def pushsettings : List SETTINGS → (String → List String) →
    List SETTINGS × (String → List String)
  | [], env => ([], env)
  | v :: rest, env =>
      let sw := var_swap v.symbol v.value env
      let pr := pushsettings rest sw.2
      ({ v with value := sw.1 } :: pr.1, pr.2)

/-- `popsettings()`: `pushsettings(v); /* just swap again */`. -/
def popsettings (l : List SETTINGS) (env : String → List String) :
    List SETTINGS × (String → List String) :=
  pushsettings l env

/-- `pushsettings` immediately followed by `popsettings` on its result. -/
def push_then_pop (l : List SETTINGS) (env : String → List String) :
    List SETTINGS × (String → List String) :=
  let p := pushsettings l env
  popsettings p.1 p.2

/-- `freesettings()`: return every node of the chain to the process-wide
free list (the node freed first ends up deepest). -/
def freesettings (st : SetSt) : List SETTINGS → SetSt
  | [] => st
  | v :: rest =>
      freesettings { st with settings_freelist := v.id :: st.settings_freelist } rest

/-- A `TARGET` record: interned name, bound filesystem name (defaulting
to the name) and the flag set.  The fields used only by the excluded
subsystems are not modelled. -/
structure TARGET where
  name : String
  boundname : String
  flags : Nat
deriving DecidableEq, Repr, Inhabited

/-- The target registry: the process-wide `targethash` mapping a target
name to the id of its record, the records themselves, and the next
fresh record id. -/
structure TSt where
  targethash : String → Option Nat
  targets : Nat → TARGET
  nextTarget : Nat

/-- `bindtarget()`: get-or-create in the process-wide table; a new
record gets `boundname = name` and all flags zero.  Returns the id of
the (stable) record. -/
def bindtarget (targetname : String) (st : TSt) : Nat × TSt :=
  match st.targethash targetname with
  | some t => (t, st)
  | none =>
      let rec0 : TARGET := { name := targetname, boundname := targetname, flags := 0 }
      (st.nextTarget,
       { targethash := Function.update st.targethash targetname (some st.nextTarget),
         targets := Function.update st.targets st.nextTarget rec0,
         nextTarget := st.nextTarget + 1 })

/-- `targetentry()`: append one target to the chain (O(1) in C via the
chain's tail pointer; the chain is modelled by its node list). -/
def targetentry (chain : List Nat) (target : Nat) : List Nat :=
  chain ++ [target]

/-- `targetlist()`: bind each name in order and append the resulting
target to the chain via `targetentry`. -/
def targetlist (chain : List Nat) (targets : List String) (st : TSt) : List Nat × TSt :=
  match targets with
  | [] => (chain, st)
  | n :: rest =>
      let bt := bindtarget n st
      targetlist (targetentry chain bt.1) rest bt.2

/-- `actionlist()`: append a single action to an `ACTIONS` chain. -/
def actionlist (chain : List Nat) (action : Nat) : List Nat :=
  chain ++ [action]

/-- A rule-registry state used to instantiate the theorems: no rule
defined anywhere, every module named `"m"`, both heaps with every id
unallocated at count 0 except that ids below 8 are marked allocated at
count 0 (as if just constructed). -/
def st0 : St :=
  { rules := fun _ => none
    moduleName := fun _ => ['m']
    argsH := { rc := fun _ => 0, alive := fun i => decide (i < 8), next := 8 }
    argsData := fun _ => []
    parseH := { rc := fun _ => 0, alive := fun i => decide (i < 8), next := 8 }
    parseRulename := fun _ => none
    actsH := { rc := fun _ => 0, alive := fun i => decide (i < 8), next := 8 }
    actsData := fun _ => default }

/-- A rule-registry state whose root module already carries a rule
`['r']` with a non-null procedure, and whose slots in module 1 are all
empty; used to instantiate the `bindrule` theorems. -/
def st1 : St :=
  let rootR : RULE :=
    { name := ['r'], module := 0, procedure := some 7, arguments := none,
      actions := none, exported := false }
  { st0 with rules := fun k => if k = (0, ['r']) then some rootR else none }

/-- A rule-registry state holding one rule record in module 1 that owns
argument list 3, procedure 4 and action template 5, each alive at
reference count 1; used to instantiate the self-assignment theorem. -/
def st2 : St :=
  let localR : RULE :=
    { name := ['r'], module := 1, procedure := some 4, arguments := some 3,
      actions := some 5, exported := false }
  { rules := fun k => if k = (1, ['r']) then some localR else none
    moduleName := fun _ => ['m']
    argsH := { rc := fun i => if i = 3 then 1 else 0, alive := fun i => decide (i < 8), next := 8 }
    argsData := fun _ => []
    parseH := { rc := fun i => if i = 4 then 1 else 0, alive := fun i => decide (i < 8), next := 8 }
    parseRulename := fun _ => none
    actsH := { rc := fun i => if i = 5 then 1 else 0, alive := fun i => decide (i < 8), next := 8 }
    actsData := fun _ => default }

/-- The empty target registry. -/
def tst0 : TSt :=
  { targethash := fun _ => none, targets := fun _ => default, nextTarget := 0 }

/-- A two-node settings chain with distinct symbols, for instantiating
the push/pop theorem. -/
def chain0 : List SETTINGS :=
  [{ id := 0, symbol := "X", value := ["1"] }, { id := 1, symbol := "Y", value := ["2"] }]

/-- A concrete variable environment, for instantiating the push/pop
theorem. -/
def env0 : String → List String :=
  fun s => if s = "X" then ["x0"] else if s = "Y" then ["y0"] else []

/-- A rule-registry state whose module 1 is named by 3000 characters,
for exercising the qualified-name buffer limits. -/
def stLong : St :=
  { st0 with moduleName := fun i => if i = 1 then List.replicate 3000 'a' else [] }

/-- A rule living in the 3000-character-named module 1, itself named by
3000 characters. -/
def rLong : RULE :=
  { name := List.replicate 3000 'b', module := 1, procedure := none, arguments := none,
    actions := none, exported := false }

/-- A rule-registry state where module 1 is named `"ab"` and module 2 is
named `"a"`, so that rule `"c"` of module 1 and rule `"bc"` of module 2
have colliding qualified names. -/
def stAlias : St :=
  { st0 with moduleName := fun i => if i = 1 then ['a', 'b'] else if i = 2 then ['a'] else [] }

/-- Rule `"c"` of module 1 (qualified name `"abc"`). -/
def rAlias1 : RULE :=
  { name := ['c'], module := 1, procedure := none, arguments := none,
    actions := none, exported := false }

/-- Rule `"bc"` of module 2 (qualified name also `"abc"`). -/
def rAlias2 : RULE :=
  { name := ['b', 'c'], module := 2, procedure := none, arguments := none,
    actions := none, exported := false }

/-! ### Reference-counting heap lemmas -/

theorem RcHeap.refer_rc_self (h : RcHeap) (i : Nat) : (h.refer i).rc i = h.rc i + 1 := by
  simp [RcHeap.refer]

theorem RcHeap.refer_rc_ne (h : RcHeap) {i j : Nat} (hij : j ≠ i) :
    (h.refer i).rc j = h.rc j := by
  simp [RcHeap.refer, Function.update_noteq hij]

theorem RcHeap.refer_alive (h : RcHeap) (i : Nat) : (h.refer i).alive = h.alive := rfl

theorem RcHeap.refer_next (h : RcHeap) (i : Nat) : (h.refer i).next = h.next := rfl

theorem RcHeap.free_rc_self (h : RcHeap) (i : Nat) : (h.free i).rc i = h.rc i - 1 := by
  simp [RcHeap.free]

theorem RcHeap.free_rc_ne (h : RcHeap) {i j : Nat} (hij : j ≠ i) :
    (h.free i).rc j = h.rc j := by
  simp [RcHeap.free, Function.update_noteq hij]

theorem RcHeap.free_alive_ne (h : RcHeap) {i j : Nat} (hij : j ≠ i) :
    (h.free i).alive j = h.alive j := by
  simp [RcHeap.free, Function.update_noteq hij]

theorem RcHeap.free_alive_self_pos (h : RcHeap) {i : Nat} (hpos : 0 < h.rc i - 1) :
    (h.free i).alive i = h.alive i := by
  have hn : ¬(h.rc i - 1 ≤ 0) := by omega
  simp [RcHeap.free, hn]

theorem RcHeap.free_alive_self_dead (h : RcHeap) {i : Nat} (hle : h.rc i - 1 ≤ 0) :
    (h.free i).alive i = false := by
  simp [RcHeap.free, hle]

theorem RcHeap.optRefer_rc_ne (h : RcHeap) {o : Option Nat} {j : Nat} (ho : o ≠ some j) :
    (h.optRefer o).rc j = h.rc j := by
  cases o with
  | none => rfl
  | some i => exact h.refer_rc_ne (fun hj => ho (by rw [hj]))

theorem RcHeap.optRefer_alive (h : RcHeap) (o : Option Nat) :
    (h.optRefer o).alive = h.alive := by
  cases o <;> rfl

theorem RcHeap.optRefer_rc_self (h : RcHeap) (i : Nat) :
    (h.optRefer (some i)).rc i = h.rc i + 1 :=
  h.refer_rc_self i

theorem RcHeap.optFree_rc_ne (h : RcHeap) {o : Option Nat} {j : Nat} (ho : o ≠ some j) :
    (h.optFree o).rc j = h.rc j := by
  cases o with
  | none => rfl
  | some i => exact h.free_rc_ne (fun hj => ho (by rw [hj]))

theorem RcHeap.optFree_alive_ne (h : RcHeap) {o : Option Nat} {j : Nat} (ho : o ≠ some j) :
    (h.optFree o).alive j = h.alive j := by
  cases o with
  | none => rfl
  | some i => exact h.free_alive_ne (fun hj => ho (by rw [hj]))

theorem RcHeap.optFree_none (h : RcHeap) : h.optFree none = h := rfl

theorem RcHeap.optRefer_none (h : RcHeap) : h.optRefer none = h := rfl

theorem RcHeap.optFree_some (h : RcHeap) (i : Nat) : h.optFree (some i) = h.free i := rfl

theorem RcHeap.optRefer_some (h : RcHeap) (i : Nat) : h.optRefer (some i) = h.refer i := rfl

/-! ### Characterization of the table operations -/

theorem enter_rule_found {st : St} {tm : Nat} {n : List Char} {r : RULE}
    (h : st.rules (tm, n) = some r) : enter_rule n tm st = (r, st) := by
  unfold enter_rule
  rw [h]

theorem enter_rule_miss {st : St} {tm : Nat} {n : List Char}
    (h : st.rules (tm, n) = none) :
    enter_rule n tm st =
      (freshRule n tm,
       { st with rules := Function.update st.rules (tm, n) (some (freshRule n tm)) }) := by
  unfold enter_rule
  rw [h]

theorem set_rule_body_none {st : St} {m : Nat} {n : List Char} {a p : Option Nat}
    (h : st.rules (m, n) = none) : set_rule_body m n a p st = st := by
  unfold set_rule_body
  rw [h]

theorem set_rule_body_char {st : St} {m : Nat} {n : List Char} (a p : Option Nat) {r : RULE}
    (h : st.rules (m, n) = some r) :
    set_rule_body m n a p st =
      { st with
        argsH := (st.argsH.optRefer a).optFree r.arguments
        parseH := (st.parseH.optRefer p).optFree r.procedure
        rules := Function.update st.rules (m, n)
                   (some { r with arguments := a, procedure := p }) } := by
  unfold set_rule_body
  rw [h]
  cases a <;> cases p <;> cases hra : r.arguments <;> cases hrp : r.procedure <;>
    simp [args_refer, args_free, parse_refer, parse_free, RcHeap.optRefer, RcHeap.optFree,
      hra, hrp]

theorem set_rule_actions_none {st : St} {m : Nat} {n : List Char} {a : Option Nat}
    (h : st.rules (m, n) = none) : set_rule_actions m n a st = st := by
  unfold set_rule_actions
  rw [h]

theorem set_rule_actions_char {st : St} {m : Nat} {n : List Char} (a : Option Nat) {r : RULE}
    (h : st.rules (m, n) = some r) :
    set_rule_actions m n a st =
      { st with
        actsH := (st.actsH.optRefer a).optFree r.actions
        rules := Function.update st.rules (m, n) (some { r with actions := a }) } := by
  unfold set_rule_actions
  rw [h]
  cases a <;> cases hra : r.actions <;>
    simp [actions_refer, actions_free, RcHeap.optRefer, RcHeap.optFree, hra]

theorem define_rule_found_eq {st : St} {tm src : Nat} {n : List Char} {r : RULE}
    (h : st.rules (tm, n) = some r) (hm : r.module = src) :
    define_rule src n tm st = (r, st) := by
  simp only [define_rule, enter_rule_found h]
  rw [if_pos hm]

/-- The record stored by `define_rule` when it invalidates a slot whose
owning module differs from the source module. -/
def clearedRule (r : RULE) (src : Nat) : RULE :=
  { name := r.name, module := src, procedure := none, arguments := none,
    actions := none, exported := r.exported }

theorem define_rule_found_ne {st : St} {tm src : Nat} {n : List Char} {r : RULE}
    (h : st.rules (tm, n) = some r) (hm : r.module ≠ src) :
    define_rule src n tm st =
      (clearedRule r src,
       { st with
         argsH := st.argsH.optFree r.arguments
         parseH := st.parseH.optFree r.procedure
         actsH := st.actsH.optFree r.actions
         rules := Function.update st.rules (tm, n) (some (clearedRule r src)) }) := by
  simp only [define_rule, enter_rule_found h]
  rw [if_neg hm]
  rw [set_rule_body_char none none h]
  rw [set_rule_actions_char none
    (show Function.update st.rules (tm, n)
        (some { r with arguments := none, procedure := none }) (tm, n) =
      some { r with arguments := none, procedure := none } from Function.update_same _ _ _)]
  simp [RcHeap.optRefer, Function.update_idem, clearedRule]

theorem define_rule_miss_self {st : St} {src : Nat} {n : List Char}
    (h : st.rules (src, n) = none) :
    define_rule src n src st =
      (freshRule n src,
       { st with rules := Function.update st.rules (src, n) (some (freshRule n src)) }) := by
  simp only [define_rule, enter_rule_miss h]
  rw [if_pos (show (freshRule n src).module = src from rfl)]

theorem define_rule_miss_cross {st : St} {tm src : Nat} {n : List Char}
    (h : st.rules (tm, n) = none) (hm : tm ≠ src) :
    define_rule src n tm st =
      (freshRule n src,
       { st with rules := Function.update st.rules (tm, n) (some (freshRule n src)) }) := by
  simp only [define_rule, enter_rule_miss h]
  rw [if_neg (show (freshRule n tm).module ≠ src from hm)]
  rw [set_rule_body_char none none (show _ = some (freshRule n tm) from Function.update_same _ _ _)]
  rw [set_rule_actions_char none
    (show Function.update (Function.update st.rules (tm, n) (some (freshRule n tm))) (tm, n)
        (some { freshRule n tm with arguments := none, procedure := none }) (tm, n) =
      some { freshRule n tm with arguments := none, procedure := none } from
        Function.update_same _ _ _)]
  simp [RcHeap.optRefer, RcHeap.optFree, Function.update_idem, clearedRule, freshRule]

theorem global_rule_root {r : RULE} {st : St} (h : r.module = root_module) :
    global_rule r st = ((r.module, r.name), st) := by
  unfold global_rule
  rw [if_pos h]

theorem global_rule_nonroot {r : RULE} {st : St} (h : r.module ≠ root_module) :
    global_rule r st =
      ((root_module, global_rule_name r st),
       (define_rule r.module (global_rule_name r st) root_module st).2) := by
  unfold global_rule
  rw [if_neg h]

theorem rule_set_exported_some {st : St} {m : Nat} {n : List Char} {r : RULE}
    (h : st.rules (m, n) = some r) (e : Bool) :
    rule_set_exported m n e st =
      { st with rules := Function.update st.rules (m, n) (some { r with exported := e }) } := by
  unfold rule_set_exported
  rw [h]
  rfl

theorem stamp_rulename_frame (p m : Nat) (n : List Char) (st : St) :
    (stamp_rulename p m n st).rules = st.rules ∧
    (stamp_rulename p m n st).argsH = st.argsH ∧
    (stamp_rulename p m n st).parseH = st.parseH ∧
    (stamp_rulename p m n st).actsH = st.actsH ∧
    (stamp_rulename p m n st).moduleName = st.moduleName := by
  unfold stamp_rulename
  cases hp : st.parseRulename p <;> cases hr : st.rules (m, n) <;> simp

theorem export_body_char {st : St} {m : Nat} {n : List Char} {lr : RULE} (a : Option Nat)
    (p : Nat) (h : st.rules (m, n) = some lr) (hm : lr.module ≠ root_module) :
    export_body m n a p st =
      set_rule_body root_module (global_rule_name lr st) a (some p)
        (define_rule lr.module (global_rule_name lr st) root_module st).2 := by
  unfold export_body
  rw [h]
  show (let gp := global_rule lr st; set_rule_body gp.1.1 gp.1.2 a (some p) gp.2) = _
  rw [global_rule_nonroot hm]

theorem new_rule_body_snd (m : Nat) (n : List Char) (a : Option Nat) (p : Nat) (e : Bool)
    (st : St) :
    (new_rule_body m n a p e st).2 =
      (if e then
        export_body m n a p
          (stamp_rulename p m n
            (set_rule_body m n a (some p) (rule_set_exported m n e (define_rule m n m st).2)))
      else
        stamp_rulename p m n
          (set_rule_body m n a (some p) (rule_set_exported m n e (define_rule m n m st).2))) :=
  rfl

/-! ### Claims about `define_rule` and `bindrule` -/

/-- Claim C5: `define_rule(src_module, name, target_module)` clears the
fetched-or-created slot's body and actions (releasing one shared
reference on each held object) and reassigns its owning module to
`src_module` exactly when the slot's recorded owning module differs
from `src_module`; when the owning module already equals `src_module`,
the slot and the whole state are left unchanged. -/
theorem c5_define_rule_invalidation (st : St) (src tm : Nat) (n : List Char) (r : RULE)
    (h : st.rules (tm, n) = some r) :
    (r.module = src → define_rule src n tm st = (r, st)) ∧
    (r.module ≠ src →
      (define_rule src n tm st).2.rules (tm, n) = some (clearedRule r src) ∧
      (clearedRule r src).arguments = none ∧
      (clearedRule r src).procedure = none ∧
      (clearedRule r src).actions = none ∧
      (clearedRule r src).module = src ∧
      (clearedRule r src).name = r.name ∧
      (clearedRule r src).exported = r.exported ∧
      (∀ a, r.arguments = some a →
        (define_rule src n tm st).2.argsH.rc a = st.argsH.rc a - 1) ∧
      (∀ p, r.procedure = some p →
        (define_rule src n tm st).2.parseH.rc p = st.parseH.rc p - 1) ∧
      (∀ c, r.actions = some c →
        (define_rule src n tm st).2.actsH.rc c = st.actsH.rc c - 1)) := by
  constructor
  · intro hm
    exact define_rule_found_eq h hm
  · intro hm
    rw [define_rule_found_ne h hm]
    refine ⟨Function.update_same _ _ _, rfl, rfl, rfl, rfl, rfl, rfl, ?_, ?_, ?_⟩
    · intro a ha
      rw [ha]
      exact RcHeap.free_rc_self _ _
    · intro p hp
      rw [hp]
      exact RcHeap.free_rc_self _ _
    · intro c hc
      rw [hc]
      exact RcHeap.free_rc_self _ _

/-- Witness for C5 at a concrete state: the rule in module 1 of `st2` is
redefined from module 2, which clears its body and actions and drops
each reference count from 1 to 0. -/
theorem c5_define_rule_invalidation_witness :
    (define_rule 2 ['r'] 1 st2).2.rules (1, ['r']) =
      some (clearedRule { name := ['r'], module := 1, procedure := some 4,
                          arguments := some 3, actions := some 5, exported := false } 2) ∧
    (define_rule 2 ['r'] 1 st2).2.argsH.rc 3 = st2.argsH.rc 3 - 1 ∧
    (define_rule 2 ['r'] 1 st2).2.parseH.rc 4 = st2.parseH.rc 4 - 1 ∧
    (define_rule 2 ['r'] 1 st2).2.actsH.rc 5 = st2.actsH.rc 5 - 1 := by
  have h := (c5_define_rule_invalidation st2 2 1 ['r']
    { name := ['r'], module := 1, procedure := some 4, arguments := some 3,
      actions := some 5, exported := false } rfl).2 (by decide)
  exact ⟨h.1, h.2.2.2.2.2.2.2.1 3 rfl, h.2.2.2.2.2.2.2.2.1 4 rfl, h.2.2.2.2.2.2.2.2.2 5 rfl⟩

/-- Claim C4: `bindrule` returns the module's own record when the name
is present; otherwise it falls back to get-or-create in the root module
under the unqualified name, and a name unknown in both tables yields a
freshly created root-module rule whose procedure is null. -/
theorem c4_bindrule_never_fails {st : St} {m : Nat} {n : List Char} :
    (∀ r, st.rules (m, n) = some r → bindrule n m st = (r, st)) ∧
    (st.rules (m, n) = none → bindrule n m st = enter_rule n root_module st) ∧
    (st.rules (m, n) = none → st.rules (root_module, n) = none →
      (bindrule n m st).1.procedure = none ∧
      (bindrule n m st).1 = freshRule n root_module ∧
      (bindrule n m st).2.rules (root_module, n) = some (freshRule n root_module)) := by
  refine ⟨?_, ?_, ?_⟩
  · intro r h
    unfold bindrule
    rw [h]
  · intro h
    unfold bindrule
    rw [h]
  · intro h h0
    have hb : bindrule n m st = enter_rule n root_module st := by
      unfold bindrule
      rw [h]
    rw [hb, enter_rule_miss h0]
    exact ⟨rfl, rfl, Function.update_same _ _ _⟩

/-- Witness for C4 at the empty state: binding `['r']` in module 1
creates a fresh root-module rule with a null procedure. -/
theorem c4_bindrule_never_fails_witness :
    st0.rules (1, ['r']) = none ∧ st0.rules (root_module, ['r']) = none ∧
    (bindrule ['r'] 1 st0).1.procedure = none ∧
    (bindrule ['r'] 1 st0).1 = freshRule ['r'] root_module ∧
    (bindrule ['r'] 1 st0).2.rules (root_module, ['r']) = some (freshRule ['r'] root_module) :=
  ⟨rfl, rfl, (c4_bindrule_never_fails.2.2 rfl rfl).1, (c4_bindrule_never_fails.2.2 rfl rfl).2.1,
   (c4_bindrule_never_fails.2.2 rfl rfl).2.2⟩

/-- Claim C9: for a name absent from module `m` but present in the root
module, `bindrule` returns the existing root record and leaves the
state unchanged; in particular the returned rule carries whatever
procedure the root record had, so the fallback is not necessarily a
fresh empty rule. -/
theorem c9_bindrule_fallback_existing {st : St} {m : Nat} {n : List Char} {r : RULE}
    (hmiss : st.rules (m, n) = none) (hroot : st.rules (root_module, n) = some r) :
    bindrule n m st = (r, st) ∧ (bindrule n m st).1.procedure = r.procedure := by
  have hb : bindrule n m st = (r, st) := by
    unfold bindrule
    rw [hmiss]
    exact enter_rule_found hroot
  exact ⟨hb, by rw [hb]⟩

theorem define_rule_self_facts {st : St} {m : Nat} {n : List Char} {i j : Nat}
    (hloc : ∀ r, st.rules (m, n) = some r →
      r.name = n ∧ r.arguments ≠ some i ∧ r.procedure ≠ some j) :
    ∃ l0, (define_rule m n m st).2.rules (m, n) = some l0 ∧
      l0.module = m ∧ l0.name = n ∧ l0.arguments ≠ some i ∧ l0.procedure ≠ some j ∧
      (define_rule m n m st).2.argsH.rc i = st.argsH.rc i ∧
      (define_rule m n m st).2.argsH.alive i = st.argsH.alive i ∧
      (define_rule m n m st).2.parseH.rc j = st.parseH.rc j ∧
      (define_rule m n m st).2.parseH.alive j = st.parseH.alive j ∧
      (∀ k, k ≠ (m, n) → (define_rule m n m st).2.rules k = st.rules k) ∧
      (define_rule m n m st).2.moduleName = st.moduleName := by
  cases h0 : st.rules (m, n) with
  | none =>
      rw [define_rule_miss_self h0]
      refine ⟨freshRule n m, Function.update_same _ _ _, rfl, rfl, by simp [freshRule],
        by simp [freshRule], rfl, rfl, rfl, rfl, ?_, rfl⟩
      intro k hk
      exact Function.update_noteq hk _ _
  | some r =>
      obtain ⟨hname, hargs, hproc⟩ := hloc r h0
      by_cases hrm : r.module = m
      · rw [define_rule_found_eq h0 hrm]
        exact ⟨r, h0, hrm, hname, hargs, hproc, rfl, rfl, rfl, rfl, fun k hk => rfl, rfl⟩
      · rw [define_rule_found_ne h0 hrm]
        refine ⟨clearedRule r m, Function.update_same _ _ _, rfl, hname,
          by simp [clearedRule], by simp [clearedRule],
          RcHeap.optFree_rc_ne _ hargs, RcHeap.optFree_alive_ne _ hargs,
          RcHeap.optFree_rc_ne _ hproc, RcHeap.optFree_alive_ne _ hproc, ?_, rfl⟩
        intro k hk
        exact Function.update_noteq hk _ _

theorem define_rule_cross_facts {st : St} {src tm : Nat} {n : List Char} {i j : Nat}
    (hne : tm ≠ src)
    (hglob : ∀ r, st.rules (tm, n) = some r →
      r.arguments ≠ some i ∧ r.procedure ≠ some j) :
    ∃ g1, (define_rule src n tm st).2.rules (tm, n) = some g1 ∧
      g1.module = src ∧ g1.arguments ≠ some i ∧ g1.procedure ≠ some j ∧
      (define_rule src n tm st).2.argsH.rc i = st.argsH.rc i ∧
      (define_rule src n tm st).2.argsH.alive i = st.argsH.alive i ∧
      (define_rule src n tm st).2.parseH.rc j = st.parseH.rc j ∧
      (define_rule src n tm st).2.parseH.alive j = st.parseH.alive j ∧
      (∀ k, k ≠ (tm, n) → (define_rule src n tm st).2.rules k = st.rules k) ∧
      (define_rule src n tm st).2.moduleName = st.moduleName := by
  cases h0 : st.rules (tm, n) with
  | none =>
      rw [define_rule_miss_cross h0 hne]
      refine ⟨freshRule n src, Function.update_same _ _ _, rfl, by simp [freshRule],
        by simp [freshRule], rfl, rfl, rfl, rfl, ?_, rfl⟩
      intro k hk
      exact Function.update_noteq hk _ _
  | some r =>
      obtain ⟨hargs, hproc⟩ := hglob r h0
      by_cases hrm : r.module = src
      · rw [define_rule_found_eq h0 hrm]
        exact ⟨r, h0, hrm, hargs, hproc, rfl, rfl, rfl, rfl, fun k hk => rfl, rfl⟩
      · rw [define_rule_found_ne h0 hrm]
        refine ⟨clearedRule r src, Function.update_same _ _ _, rfl,
          by simp [clearedRule], by simp [clearedRule],
          RcHeap.optFree_rc_ne _ hargs, RcHeap.optFree_alive_ne _ hargs,
          RcHeap.optFree_rc_ne _ hproc, RcHeap.optFree_alive_ne _ hproc, ?_, rfl⟩
        intro k hk
        exact Function.update_noteq hk _ _

theorem local_phase_facts {st : St} {m : Nat} {n : List Char} {i j : Nat} (e : Bool)
    (hloc : ∀ r, st.rules (m, n) = some r →
      r.name = n ∧ r.arguments ≠ some i ∧ r.procedure ≠ some j) :
    ∃ l2, (local_phase m n (some i) j e st).rules (m, n) = some l2 ∧
      l2.module = m ∧ l2.name = n ∧ l2.arguments = some i ∧ l2.procedure = some j ∧
      l2.exported = e ∧
      (local_phase m n (some i) j e st).argsH.rc i = st.argsH.rc i + 1 ∧
      (local_phase m n (some i) j e st).argsH.alive i = st.argsH.alive i ∧
      (local_phase m n (some i) j e st).parseH.rc j = st.parseH.rc j + 1 ∧
      (local_phase m n (some i) j e st).parseH.alive j = st.parseH.alive j ∧
      (∀ k, k ≠ (m, n) → (local_phase m n (some i) j e st).rules k = st.rules k) ∧
      (local_phase m n (some i) j e st).moduleName = st.moduleName := by
  obtain ⟨l0, hslot1, hmod1, hname1, hargs1, hproc1, hArc1, hAal1, hPrc1, hPal1, hfr1, hmn1⟩ :=
    define_rule_self_facts hloc
  have h2 := rule_set_exported_some hslot1 e
  have hslot2 : (rule_set_exported m n e (define_rule m n m st).2).rules (m, n) =
      some { l0 with exported := e } := by
    rw [h2]
    exact Function.update_same _ _ _
  have hA2 : (rule_set_exported m n e (define_rule m n m st).2).argsH =
      (define_rule m n m st).2.argsH := by
    rw [h2]
  have hP2 : (rule_set_exported m n e (define_rule m n m st).2).parseH =
      (define_rule m n m st).2.parseH := by
    rw [h2]
  have hmn2 : (rule_set_exported m n e (define_rule m n m st).2).moduleName =
      (define_rule m n m st).2.moduleName := by
    rw [h2]
  have hfr2 : ∀ k, k ≠ (m, n) →
      (rule_set_exported m n e (define_rule m n m st).2).rules k =
      (define_rule m n m st).2.rules k := by
    intro k hk
    rw [h2]
    exact Function.update_noteq hk _ _
  have h3 := set_rule_body_char (some i) (some j) hslot2
  have hslot3 : (set_rule_body m n (some i) (some j)
      (rule_set_exported m n e (define_rule m n m st).2)).rules (m, n) =
      some { l0 with exported := e, arguments := some i, procedure := some j } := by
    rw [h3]
    exact Function.update_same _ _ _
  have hA3 : (set_rule_body m n (some i) (some j)
      (rule_set_exported m n e (define_rule m n m st).2)).argsH =
      (((rule_set_exported m n e (define_rule m n m st).2).argsH.optRefer
        (some i)).optFree l0.arguments) := by
    rw [h3]
  have hP3 : (set_rule_body m n (some i) (some j)
      (rule_set_exported m n e (define_rule m n m st).2)).parseH =
      (((rule_set_exported m n e (define_rule m n m st).2).parseH.optRefer
        (some j)).optFree l0.procedure) := by
    rw [h3]
  have hmn3 : (set_rule_body m n (some i) (some j)
      (rule_set_exported m n e (define_rule m n m st).2)).moduleName =
      (rule_set_exported m n e (define_rule m n m st).2).moduleName := by
    rw [h3]
  have hfr3 : ∀ k, k ≠ (m, n) →
      (set_rule_body m n (some i) (some j)
        (rule_set_exported m n e (define_rule m n m st).2)).rules k =
      (rule_set_exported m n e (define_rule m n m st).2).rules k := by
    intro k hk
    rw [h3]
    exact Function.update_noteq hk _ _
  have h4 := stamp_rulename_frame j m n
    (set_rule_body m n (some i) (some j)
      (rule_set_exported m n e (define_rule m n m st).2))
  refine ⟨{ l0 with exported := e, arguments := some i, procedure := some j },
    ?_, hmod1, hname1, rfl, rfl, rfl, ?_, ?_, ?_, ?_, ?_, ?_⟩
  · show (local_phase m n (some i) j e st).rules (m, n) = _
    unfold local_phase
    rw [h4.1]
    exact hslot3
  · unfold local_phase
    rw [h4.2.1, hA3, RcHeap.optFree_rc_ne _ hargs1, RcHeap.optRefer_rc_self, hA2, hArc1]
  · unfold local_phase
    rw [h4.2.1, hA3, RcHeap.optFree_alive_ne _ hargs1, RcHeap.optRefer_alive, hA2, hAal1]
  · unfold local_phase
    rw [h4.2.2.1, hP3, RcHeap.optFree_rc_ne _ hproc1, RcHeap.optRefer_rc_self, hP2, hPrc1]
  · unfold local_phase
    rw [h4.2.2.1, hP3, RcHeap.optFree_alive_ne _ hproc1, RcHeap.optRefer_alive, hP2, hPal1]
  · intro k hk
    unfold local_phase
    rw [h4.1, hfr3 k hk, hfr2 k hk, hfr1 k hk]
  · unfold local_phase
    rw [h4.2.2.2.2, hmn3, hmn2, hmn1]

theorem export_phase_facts {st4 : St} {m : Nat} {n : List Char} {i j : Nat} {l2 : RULE}
    (hm : m ≠ root_module)
    (hslot : st4.rules (m, n) = some l2) (hl2m : l2.module = m)
    (hglob : ∀ r, st4.rules (root_module, global_rule_name l2 st4) = some r →
      r.arguments ≠ some i ∧ r.procedure ≠ some j) :
    ∃ g2, (export_body m n (some i) j st4).rules
        (root_module, global_rule_name l2 st4) = some g2 ∧
      g2.arguments = some i ∧ g2.procedure = some j ∧
      (export_body m n (some i) j st4).argsH.rc i = st4.argsH.rc i + 1 ∧
      (export_body m n (some i) j st4).argsH.alive i = st4.argsH.alive i ∧
      (export_body m n (some i) j st4).parseH.rc j = st4.parseH.rc j + 1 ∧
      (export_body m n (some i) j st4).parseH.alive j = st4.parseH.alive j ∧
      (export_body m n (some i) j st4).rules (m, n) = some l2 := by
  have hl2ne : l2.module ≠ root_module := by
    rw [hl2m]
    exact hm
  have hE := export_body_char (some i) j hslot hl2ne
  rw [hl2m] at hE
  obtain ⟨g1, hg1slot, hg1mod, hg1args, hg1proc, hBArc, hBAal, hBPrc, hBPal, hBfr, hBmn⟩ :=
    define_rule_cross_facts (show root_module ≠ m from fun h => hm h.symm) hglob
  have h6 := set_rule_body_char (some i) (some j) hg1slot
  have hkey : ((m : Nat), n) ≠ ((root_module : Nat), global_rule_name l2 st4) := by
    intro hp
    exact hm (congrArg Prod.fst hp)
  refine ⟨{ g1 with arguments := some i, procedure := some j }, ?_, rfl, rfl, ?_, ?_, ?_, ?_, ?_⟩
  · rw [hE, h6]
    exact Function.update_same _ _ _
  · rw [hE]
    have hA6 : (set_rule_body root_module (global_rule_name l2 st4) (some i) (some j)
        (define_rule m (global_rule_name l2 st4) root_module st4).2).argsH =
        (((define_rule m (global_rule_name l2 st4) root_module st4).2.argsH.optRefer
          (some i)).optFree g1.arguments) := by
      rw [h6]
    rw [hA6, RcHeap.optFree_rc_ne _ hg1args, RcHeap.optRefer_rc_self, hBArc]
  · rw [hE]
    have hA6 : (set_rule_body root_module (global_rule_name l2 st4) (some i) (some j)
        (define_rule m (global_rule_name l2 st4) root_module st4).2).argsH =
        (((define_rule m (global_rule_name l2 st4) root_module st4).2.argsH.optRefer
          (some i)).optFree g1.arguments) := by
      rw [h6]
    rw [hA6, RcHeap.optFree_alive_ne _ hg1args, RcHeap.optRefer_alive, hBAal]
  · rw [hE]
    have hP6 : (set_rule_body root_module (global_rule_name l2 st4) (some i) (some j)
        (define_rule m (global_rule_name l2 st4) root_module st4).2).parseH =
        (((define_rule m (global_rule_name l2 st4) root_module st4).2.parseH.optRefer
          (some j)).optFree g1.procedure) := by
      rw [h6]
    rw [hP6, RcHeap.optFree_rc_ne _ hg1proc, RcHeap.optRefer_rc_self, hBPrc]
  · rw [hE]
    have hP6 : (set_rule_body root_module (global_rule_name l2 st4) (some i) (some j)
        (define_rule m (global_rule_name l2 st4) root_module st4).2).parseH =
        (((define_rule m (global_rule_name l2 st4) root_module st4).2.parseH.optRefer
          (some j)).optFree g1.procedure) := by
      rw [h6]
    rw [hP6, RcHeap.optFree_alive_ne _ hg1proc, RcHeap.optRefer_alive, hBPal]
  · rw [hE]
    have hR6 : (set_rule_body root_module (global_rule_name l2 st4) (some i) (some j)
        (define_rule m (global_rule_name l2 st4) root_module st4).2).rules =
        Function.update
          (define_rule m (global_rule_name l2 st4) root_module st4).2.rules
          (root_module, global_rule_name l2 st4)
          (some { g1 with arguments := some i, procedure := some j }) := by
      rw [h6]
    rw [hR6, Function.update_noteq hkey, hBfr (m, n) hkey]
    exact hslot

/-- Claim C1: defining a rule via `new_rule_body` with `exported = true`
in a non-root module installs the *same* argument-list object and the
*same* procedure object into both the local slot and the global mirror
slot keyed by the qualified name, each object ending at reference count
2; consequently releasing the local slot's references (clearing the
local rule's body) leaves both objects allocated at count 1, with the
global slot's record untouched. -/
theorem c1_exported_rule_shares_body (st : St) (m : Nat) (rulename : List Char)
    (argId procId : Nat)
    (hm : m ≠ root_module)
    (hargs_rc : st.argsH.rc argId = 0) (hargs_alive : st.argsH.alive argId = true)
    (hproc_rc : st.parseH.rc procId = 0) (hproc_alive : st.parseH.alive procId = true)
    (hlocal : ∀ r, st.rules (m, rulename) = some r →
      r.name = rulename ∧ r.arguments ≠ some argId ∧ r.procedure ≠ some procId)
    (hglobal : ∀ r, st.rules (root_module,
        List.take 4095 (st.moduleName m) ++ List.take 4095 rulename) = some r →
      r.arguments ≠ some argId ∧ r.procedure ≠ some procId) :
    (∃ lr, (new_rule_body m rulename (some argId) procId true st).2.rules (m, rulename) =
        some lr ∧ lr.arguments = some argId ∧ lr.procedure = some procId ∧
        lr.exported = true) ∧
    (∃ gr, (new_rule_body m rulename (some argId) procId true st).2.rules
        (root_module, List.take 4095 (st.moduleName m) ++ List.take 4095 rulename) =
        some gr ∧ gr.arguments = some argId ∧ gr.procedure = some procId) ∧
    (new_rule_body m rulename (some argId) procId true st).2.argsH.rc argId = 2 ∧
    (new_rule_body m rulename (some argId) procId true st).2.argsH.alive argId = true ∧
    (new_rule_body m rulename (some argId) procId true st).2.parseH.rc procId = 2 ∧
    (new_rule_body m rulename (some argId) procId true st).2.parseH.alive procId = true ∧
    ((set_rule_body m rulename none none
        (new_rule_body m rulename (some argId) procId true st).2).argsH.alive argId = true ∧
     (set_rule_body m rulename none none
        (new_rule_body m rulename (some argId) procId true st).2).argsH.rc argId = 1 ∧
     (set_rule_body m rulename none none
        (new_rule_body m rulename (some argId) procId true st).2).parseH.alive procId = true ∧
     (set_rule_body m rulename none none
        (new_rule_body m rulename (some argId) procId true st).2).parseH.rc procId = 1 ∧
     (set_rule_body m rulename none none
        (new_rule_body m rulename (some argId) procId true st).2).rules
        (root_module, List.take 4095 (st.moduleName m) ++ List.take 4095 rulename) =
       (new_rule_body m rulename (some argId) procId true st).2.rules
        (root_module, List.take 4095 (st.moduleName m) ++ List.take 4095 rulename)) := by
  obtain ⟨l2, hl2slot, hl2mod, hl2name, hl2args, hl2proc, hl2exp, hArc, hAal, hPrc, hPal,
    hfr, hmnX⟩ :=
    local_phase_facts true hlocal
  have hsnd : (new_rule_body m rulename (some argId) procId true st).2 =
      export_body m rulename (some argId) procId
        (local_phase m rulename (some argId) procId true st) := rfl
  have hqn : global_rule_name l2 (local_phase m rulename (some argId) procId true st) =
      List.take 4095 (st.moduleName m) ++ List.take 4095 rulename := by
    unfold global_rule_name
    rw [hl2mod, if_neg hm, hmnX, hl2name]
    simp [strncat]
  have hk0 : ((root_module : Nat),
      List.take 4095 (st.moduleName m) ++ List.take 4095 rulename) ≠ ((m : Nat), rulename) := by
    intro hp
    exact hm (congrArg Prod.fst hp).symm
  have hglob4 : ∀ r, (local_phase m rulename (some argId) procId true st).rules
      (root_module,
        global_rule_name l2 (local_phase m rulename (some argId) procId true st)) = some r →
      r.arguments ≠ some argId ∧ r.procedure ≠ some procId := by
    intro r hr
    rw [hqn, hfr _ hk0] at hr
    exact hglobal r hr
  obtain ⟨g2, hg2slot, hg2args, hg2proc, hEArc, hEAal, hEPrc, hEPal, hElocal⟩ :=
    export_phase_facts hm hl2slot hl2mod hglob4
  rw [hqn] at hg2slot
  have hslotX : (new_rule_body m rulename (some argId) procId true st).2.rules (m, rulename) =
      some l2 := by
    rw [hsnd]
    exact hElocal
  have hrc2 : (new_rule_body m rulename (some argId) procId true st).2.argsH.rc argId = 2 := by
    rw [hsnd, hEArc, hArc, hargs_rc]
    norm_num
  have halive2 : (new_rule_body m rulename (some argId) procId true st).2.argsH.alive argId =
      true := by
    rw [hsnd, hEAal, hAal]
    exact hargs_alive
  have hprc2 : (new_rule_body m rulename (some argId) procId true st).2.parseH.rc procId =
      2 := by
    rw [hsnd, hEPrc, hPrc, hproc_rc]
    norm_num
  have hpalive2 : (new_rule_body m rulename (some argId) procId true st).2.parseH.alive procId =
      true := by
    rw [hsnd, hEPal, hPal]
    exact hproc_alive
  have h7 := set_rule_body_char none none hslotX
  have hA7 : (set_rule_body m rulename none none
      (new_rule_body m rulename (some argId) procId true st).2).argsH =
      (((new_rule_body m rulename (some argId) procId true st).2.argsH.optRefer
        none).optFree l2.arguments) := by
    rw [h7]
  have hP7 : (set_rule_body m rulename none none
      (new_rule_body m rulename (some argId) procId true st).2).parseH =
      (((new_rule_body m rulename (some argId) procId true st).2.parseH.optRefer
        none).optFree l2.procedure) := by
    rw [h7]
  have hR7 : (set_rule_body m rulename none none
      (new_rule_body m rulename (some argId) procId true st).2).rules =
      Function.update (new_rule_body m rulename (some argId) procId true st).2.rules
        (m, rulename) (some { l2 with arguments := none, procedure := none }) := by
    rw [h7]
  refine ⟨⟨l2, hslotX, hl2args, hl2proc, hl2exp⟩, ⟨g2, by rw [hsnd]; exact hg2slot, hg2args,
    hg2proc⟩, hrc2, halive2, hprc2, hpalive2, ?_, ?_, ?_, ?_, ?_⟩
  · rw [hA7, RcHeap.optRefer_none, hl2args, RcHeap.optFree_some,
      RcHeap.free_alive_self_pos _ (by rw [hrc2]; omega)]
    exact halive2
  · rw [hA7, RcHeap.optRefer_none, hl2args, RcHeap.optFree_some, RcHeap.free_rc_self, hrc2]
    omega
  · rw [hP7, RcHeap.optRefer_none, hl2proc, RcHeap.optFree_some,
      RcHeap.free_alive_self_pos _ (by rw [hprc2]; omega)]
    exact hpalive2
  · rw [hP7, RcHeap.optRefer_none, hl2proc, RcHeap.optFree_some, RcHeap.free_rc_self, hprc2]
    omega
  · rw [hR7, Function.update_noteq hk0]

/-- Witness for C1: exporting a fresh body (argument list 0, procedure
0, both alive at count 0 in `st0`) as rule `['r']` of module 1 yields
shared local and global records with both counts at 2, surviving a
release of the local references. -/
theorem c1_exported_rule_shares_body_witness :
    (∃ lr, (new_rule_body 1 ['r'] (some 0) 0 true st0).2.rules (1, ['r']) =
        some lr ∧ lr.arguments = some 0 ∧ lr.procedure = some 0 ∧
        lr.exported = true) ∧
    (∃ gr, (new_rule_body 1 ['r'] (some 0) 0 true st0).2.rules
        (root_module, List.take 4095 (st0.moduleName 1) ++ List.take 4095 ['r']) =
        some gr ∧ gr.arguments = some 0 ∧ gr.procedure = some 0) ∧
    (new_rule_body 1 ['r'] (some 0) 0 true st0).2.argsH.rc 0 = 2 ∧
    (new_rule_body 1 ['r'] (some 0) 0 true st0).2.argsH.alive 0 = true ∧
    (new_rule_body 1 ['r'] (some 0) 0 true st0).2.parseH.rc 0 = 2 ∧
    (new_rule_body 1 ['r'] (some 0) 0 true st0).2.parseH.alive 0 = true ∧
    ((set_rule_body 1 ['r'] none none
        (new_rule_body 1 ['r'] (some 0) 0 true st0).2).argsH.alive 0 = true ∧
     (set_rule_body 1 ['r'] none none
        (new_rule_body 1 ['r'] (some 0) 0 true st0).2).argsH.rc 0 = 1 ∧
     (set_rule_body 1 ['r'] none none
        (new_rule_body 1 ['r'] (some 0) 0 true st0).2).parseH.alive 0 = true ∧
     (set_rule_body 1 ['r'] none none
        (new_rule_body 1 ['r'] (some 0) 0 true st0).2).parseH.rc 0 = 1 ∧
     (set_rule_body 1 ['r'] none none
        (new_rule_body 1 ['r'] (some 0) 0 true st0).2).rules
        (root_module, List.take 4095 (st0.moduleName 1) ++ List.take 4095 ['r']) =
       (new_rule_body 1 ['r'] (some 0) 0 true st0).2.rules
        (root_module, List.take 4095 (st0.moduleName 1) ++ List.take 4095 ['r'])) :=
  c1_exported_rule_shares_body st0 1 ['r'] 0 0 (by decide) rfl rfl rfl rfl
    (fun r h => Option.noConfusion h) (fun r h => Option.noConfusion h)

/-- Claim C2: because the installers increment the incoming reference
before decrementing the outgoing one, installing an object a slot
already holds (self-assignment through `set_rule_body` or
`set_rule_actions`) never frees the object: afterwards the slot still
holds it, it is still allocated, and its net reference count is
unchanged.  A freshly constructed shared object starts at reference
count 0 and is brought to 1 by its first installer. -/
theorem c2_self_assignment_safe (st : St) (m : Nat) (n : List Char) (r : RULE)
    (h : st.rules (m, n) = some r) :
    (∀ a, r.arguments = some a → 1 ≤ st.argsH.rc a → st.argsH.alive a = true →
      (set_rule_body m n (some a) r.procedure st).rules (m, n) =
        some { r with arguments := some a, procedure := r.procedure } ∧
      (set_rule_body m n (some a) r.procedure st).argsH.alive a = true ∧
      (set_rule_body m n (some a) r.procedure st).argsH.rc a = st.argsH.rc a) ∧
    (∀ p, r.procedure = some p → 1 ≤ st.parseH.rc p → st.parseH.alive p = true →
      (set_rule_body m n r.arguments (some p) st).parseH.alive p = true ∧
      (set_rule_body m n r.arguments (some p) st).parseH.rc p = st.parseH.rc p) ∧
    (∀ c, r.actions = some c → 1 ≤ st.actsH.rc c → st.actsH.alive c = true →
      (set_rule_actions m n (some c) st).rules (m, n) = some { r with actions := some c } ∧
      (set_rule_actions m n (some c) st).actsH.alive c = true ∧
      (set_rule_actions m n (some c) st).actsH.rc c = st.actsH.rc c) ∧
    ((args_new st).2.argsH.rc (args_new st).1 = 0 ∧
     (∀ cmd bl fl, (actions_new cmd bl fl st).2.actsH.rc (actions_new cmd bl fl st).1 = 0)) ∧
    (∀ i, r.arguments = none → st.argsH.rc i = 0 →
      (set_rule_body m n (some i) r.procedure st).argsH.rc i = 1) ∧
    (∀ c, r.actions = none → st.actsH.rc c = 0 →
      (set_rule_actions m n (some c) st).actsH.rc c = 1) := by
  refine ⟨?_, ?_, ?_, ?_, ?_, ?_⟩
  · intro a ha h1 halive
    rw [set_rule_body_char (some a) r.procedure h]
    refine ⟨Function.update_same _ _ _, ?_, ?_⟩
    · show ((st.argsH.optRefer (some a)).optFree r.arguments).alive a = true
      rw [ha]
      show ((st.argsH.refer a).free a).alive a = true
      rw [RcHeap.free_alive_self_pos _ (by rw [RcHeap.refer_rc_self]; omega)]
      rw [RcHeap.refer_alive]
      exact halive
    · show ((st.argsH.optRefer (some a)).optFree r.arguments).rc a = st.argsH.rc a
      rw [ha]
      show ((st.argsH.refer a).free a).rc a = st.argsH.rc a
      rw [RcHeap.free_rc_self, RcHeap.refer_rc_self]
      omega
  · intro p hp h1 halive
    rw [set_rule_body_char r.arguments (some p) h]
    constructor
    · show ((st.parseH.optRefer (some p)).optFree r.procedure).alive p = true
      rw [hp]
      show ((st.parseH.refer p).free p).alive p = true
      rw [RcHeap.free_alive_self_pos _ (by rw [RcHeap.refer_rc_self]; omega)]
      rw [RcHeap.refer_alive]
      exact halive
    · show ((st.parseH.optRefer (some p)).optFree r.procedure).rc p = st.parseH.rc p
      rw [hp]
      show ((st.parseH.refer p).free p).rc p = st.parseH.rc p
      rw [RcHeap.free_rc_self, RcHeap.refer_rc_self]
      omega
  · intro c hc h1 halive
    rw [set_rule_actions_char (some c) h]
    refine ⟨Function.update_same _ _ _, ?_, ?_⟩
    · show ((st.actsH.optRefer (some c)).optFree r.actions).alive c = true
      rw [hc]
      show ((st.actsH.refer c).free c).alive c = true
      rw [RcHeap.free_alive_self_pos _ (by rw [RcHeap.refer_rc_self]; omega)]
      rw [RcHeap.refer_alive]
      exact halive
    · show ((st.actsH.optRefer (some c)).optFree r.actions).rc c = st.actsH.rc c
      rw [hc]
      show ((st.actsH.refer c).free c).rc c = st.actsH.rc c
      rw [RcHeap.free_rc_self, RcHeap.refer_rc_self]
      omega
  · constructor
    · simp [args_new, RcHeap.alloc]
    · intro cmd bl fl
      simp [actions_new, RcHeap.alloc]
  · intro i hra h0
    rw [set_rule_body_char (some i) r.procedure h]
    show ((st.argsH.optRefer (some i)).optFree r.arguments).rc i = 1
    rw [hra]
    show (st.argsH.refer i).rc i = 1
    rw [RcHeap.refer_rc_self]
    omega
  · intro c hrc h0
    rw [set_rule_actions_char (some c) h]
    show ((st.actsH.optRefer (some c)).optFree r.actions).rc c = 1
    rw [hrc]
    show (st.actsH.refer c).rc c = 1
    rw [RcHeap.refer_rc_self]
    omega

/-- Witness for C2 at `st2`: reinstalling the very objects the slot of
module 1 already holds leaves them alive with unchanged counts, and a
freshly built argument list starts at count 0. -/
theorem c2_self_assignment_safe_witness :
    (set_rule_body 1 ['r'] (some 3) (some 4) st2).argsH.alive 3 = true ∧
    (set_rule_body 1 ['r'] (some 3) (some 4) st2).argsH.rc 3 = st2.argsH.rc 3 ∧
    (set_rule_actions 1 ['r'] (some 5) st2).actsH.alive 5 = true ∧
    (set_rule_actions 1 ['r'] (some 5) st2).actsH.rc 5 = st2.actsH.rc 5 ∧
    (args_new st2).2.argsH.rc (args_new st2).1 = 0 := by
  have h := c2_self_assignment_safe st2 1 ['r']
    { name := ['r'], module := 1, procedure := some 4, arguments := some 3,
      actions := some 5, exported := false } rfl
  have ha := h.1 3 rfl (by decide) (by decide)
  have hc := h.2.2.1 5 rfl (by decide) (by decide)
  exact ⟨ha.2.1, ha.2.2, hc.2.1, hc.2.2, h.2.2.2.1.1⟩

/-- Claim C10: the global mirror slot produced by `global_rule` for a
rule of a non-root module records the exporting module as its owner;
hence a repeated export of the same rule from the same module leaves
the mirror (and the whole state) untouched, while a colliding export
from a different module clears the mirror's body and actions first. -/
theorem c10_global_mirror_owner (st : St) (r : RULE) (hm : r.module ≠ root_module) :
    (∃ gr, (global_rule r st).2.rules (root_module, global_rule_name r st) = some gr ∧
       gr.module = r.module) ∧
    (∀ g, st.rules (root_module, global_rule_name r st) = some g → g.module = r.module →
       global_rule r st = ((root_module, global_rule_name r st), st)) ∧
    (∀ g, st.rules (root_module, global_rule_name r st) = some g → g.module ≠ r.module →
       (global_rule r st).2.rules (root_module, global_rule_name r st) =
         some (clearedRule g r.module) ∧
       (clearedRule g r.module).arguments = none ∧
       (clearedRule g r.module).procedure = none ∧
       (clearedRule g r.module).actions = none) := by
  rw [global_rule_nonroot hm]
  refine ⟨?_, ?_, ?_⟩
  · cases hg : st.rules (root_module, global_rule_name r st) with
    | none =>
        rw [define_rule_miss_cross hg (fun h0 => hm h0.symm)]
        exact ⟨freshRule (global_rule_name r st) r.module,
               by simp [Function.update_same], rfl⟩
    | some g =>
        by_cases hgm : g.module = r.module
        · rw [define_rule_found_eq hg hgm]
          exact ⟨g, hg, hgm⟩
        · rw [define_rule_found_ne hg hgm]
          exact ⟨clearedRule g r.module, by simp [Function.update_same], rfl⟩
  · intro g hg hgm
    rw [define_rule_found_eq hg hgm]
  · intro g hg hgm
    rw [define_rule_found_ne hg hgm]
    exact ⟨by simp [Function.update_same], rfl, rfl, rfl⟩

/-- Witness for C10: exporting rule `['r']` of module 1 into the empty
root table of `st0` creates a mirror owned by module 1, not by the root
module. -/
theorem c10_global_mirror_owner_witness :
    ∃ gr, (global_rule (freshRule ['r'] 1) st0).2.rules
            (root_module, global_rule_name (freshRule ['r'] 1) st0) = some gr ∧
          gr.module = (freshRule ['r'] 1).module :=
  (c10_global_mirror_owner st0 (freshRule ['r'] 1) (by decide)).1

/-! ### Settings stack lemmas -/

theorem pushsettings_symbols (l : List SETTINGS) (e : String → List String) :
    (pushsettings l e).1.map SETTINGS.symbol = l.map SETTINGS.symbol := by
  induction l generalizing e with
  | nil => rfl
  | cons v rest ih =>
      simp only [pushsettings, var_swap, List.map_cons]
      rw [ih]

theorem pushsettings_env_not_mem {x : String} :
    ∀ (l : List SETTINGS) (e : String → List String),
    x ∉ l.map SETTINGS.symbol → (pushsettings l e).2 x = e x := by
  intro l
  induction l with
  | nil =>
      intro e _
      rfl
  | cons v rest ih =>
      intro e hx
      simp only [List.map_cons, List.mem_cons, not_or] at hx
      simp only [pushsettings, var_swap]
      rw [ih _ hx.2]
      exact Function.update_noteq hx.1 _ _

theorem pushsettings_update {x : String} {w : List String} :
    ∀ (l : List SETTINGS) (e : String → List String), x ∉ l.map SETTINGS.symbol →
    pushsettings l (Function.update e x w) =
      ((pushsettings l e).1, Function.update (pushsettings l e).2 x w) := by
  intro l
  induction l with
  | nil =>
      intro e _
      rfl
  | cons v rest ih =>
      intro e hx
      simp only [List.map_cons, List.mem_cons, not_or] at hx
      simp only [pushsettings, var_swap]
      have hcomm : Function.update (Function.update e x w) v.symbol v.value =
          Function.update (Function.update e v.symbol v.value) x w :=
        Function.update_comm hx.1 _ _ _
      rw [Function.update_noteq (Ne.symm hx.1), hcomm, ih _ hx.2]

theorem pushsettings_pushsettings :
    ∀ (l : List SETTINGS) (e : String → List String), (l.map SETTINGS.symbol).Nodup →
    pushsettings (pushsettings l e).1 (pushsettings l e).2 = (l, e) := by
  intro l
  induction l with
  | nil =>
      intro e _
      rfl
  | cons v rest ih =>
      intro e hnd
      simp only [List.map_cons, List.nodup_cons] at hnd
      obtain ⟨hv, hrest⟩ := hnd
      simp only [pushsettings, var_swap]
      have h1 : (pushsettings rest (Function.update e v.symbol v.value)).2 v.symbol =
          v.value := by
        rw [pushsettings_env_not_mem rest _ hv, Function.update_same]
      have h2 : v.symbol ∉
          (pushsettings rest (Function.update e v.symbol v.value)).1.map SETTINGS.symbol := by
        rw [pushsettings_symbols]
        exact hv
      rw [h1, pushsettings_update _ _ h2, ih _ hrest]
      simp [Function.update_idem, Function.update_eq_self]

/-- Claim C3: on a settings chain with pairwise distinct symbols,
`pushsettings` followed by `popsettings` restores every variable (and
the chain itself) exactly; `popsettings` is literally the same swap
loop as `pushsettings`, and doing push-pop twice ends in the same final
state as doing it once. -/
theorem c3_push_pop_restores (l : List SETTINGS) (e : String → List String)
    (hnd : (l.map SETTINGS.symbol).Nodup) :
    (∀ (l' : List SETTINGS) (e' : String → List String),
      popsettings l' e' = pushsettings l' e') ∧
    push_then_pop l e = (l, e) ∧
    (∀ x, (push_then_pop l e).2 x = e x) ∧
    push_then_pop (push_then_pop l e).1 (push_then_pop l e).2 = push_then_pop l e := by
  have hmain : push_then_pop l e = (l, e) := by
    unfold push_then_pop popsettings
    exact pushsettings_pushsettings l e hnd
  refine ⟨fun l' e' => rfl, hmain, ?_, ?_⟩
  · intro x
    rw [hmain]
  · rw [hmain]
    exact hmain

/-- Witness for C3 on the concrete two-symbol chain `chain0` and
environment `env0`. -/
theorem c3_push_pop_restores_witness :
    push_then_pop chain0 env0 = (chain0, env0) ∧
    (push_then_pop chain0 env0).2 "X" = env0 "X" :=
  ⟨(c3_push_pop_restores chain0 env0 (by decide)).2.1,
   (c3_push_pop_restores chain0 env0 (by decide)).2.2.1 "X"⟩

/-! ### Target registry lemmas -/

theorem bindtarget_found {st : TSt} {name : String} {t : Nat}
    (h : st.targethash name = some t) : bindtarget name st = (t, st) := by
  unfold bindtarget
  rw [h]

theorem bindtarget_miss {st : TSt} {name : String} (h : st.targethash name = none) :
    bindtarget name st =
      (st.nextTarget,
       { targethash := Function.update st.targethash name (some st.nextTarget),
         targets := Function.update st.targets st.nextTarget
           { name := name, boundname := name, flags := 0 },
         nextTarget := st.nextTarget + 1 }) := by
  unfold bindtarget
  rw [h]

theorem targetlist_chain (targets : List String) :
    ∀ (chain : List Nat) (st : TSt),
    (targetlist chain targets st).1 = chain ++ (targetlist [] targets st).1 ∧
    (targetlist chain targets st).2 = (targetlist [] targets st).2 := by
  induction targets with
  | nil =>
      intro chain st
      simp [targetlist]
  | cons n rest ih =>
      intro chain st
      simp only [targetlist, targetentry]
      constructor
      · rw [(ih (chain ++ [(bindtarget n st).1]) (bindtarget n st).2).1,
          (ih ([] ++ [(bindtarget n st).1]) (bindtarget n st).2).1]
        simp
      · rw [(ih (chain ++ [(bindtarget n st).1]) (bindtarget n st).2).2,
          (ih ([] ++ [(bindtarget n st).1]) (bindtarget n st).2).2]

theorem targetlist_length (targets : List String) :
    ∀ st : TSt, ((targetlist [] targets st).1).length = targets.length := by
  induction targets with
  | nil =>
      intro st
      rfl
  | cons n rest ih =>
      intro st
      simp only [targetlist, targetentry]
      rw [(targetlist_chain rest ([] ++ [(bindtarget n st).1]) (bindtarget n st).2).1]
      simp [ih]

theorem bindtarget_stable (name : String) (st : TSt) :
    (bindtarget name (bindtarget name st).2).1 = (bindtarget name st).1 := by
  have h2 : ((bindtarget name st).2).targethash name = some (bindtarget name st).1 := by
    cases h : st.targethash name with
    | some t =>
        rw [bindtarget_found h]
        exact h
    | none =>
        rw [bindtarget_miss h]
        exact Function.update_same _ _ _
  rw [bindtarget_found h2]

/-- Claim C8: `targetlist` and `actionlist` append one node per input
element at the tail of the existing chain, preserving input order and
duplicates; binding `["a", "b", "a"]` on an empty chain yields exactly
the 3-node chain `a, b, a`, where the two `a` nodes reference the
identical target record (`bindtarget` is stable on equal names). -/
theorem c8_chains_append_in_order :
    (∀ (chain : List Nat) (targets : List String) (st : TSt),
      (targetlist chain targets st).1 = chain ++ (targetlist [] targets st).1) ∧
    (∀ (targets : List String) (st : TSt),
      ((targetlist [] targets st).1).length = targets.length) ∧
    (∀ (chain : List Nat) (t : Nat), targetentry chain t = chain ++ [t]) ∧
    (∀ (chain : List Nat) (a : Nat), actionlist chain a = chain ++ [a]) ∧
    (targetlist [] ["a", "b", "a"] tst0).1 = [0, 1, 0] ∧
    (∀ (name : String) (st : TSt),
      (bindtarget name (bindtarget name st).2).1 = (bindtarget name st).1) :=
  ⟨fun chain targets st => (targetlist_chain targets chain st).1,
   fun targets st => targetlist_length targets st,
   fun _ _ => rfl, fun _ _ => rfl, by decide, bindtarget_stable⟩

/-- The behaviour claim C7 ascribes to `global_rule_name`: a combined
name longer than the 4096-byte buffer comes out truncated to the
buffer.  Refuted below at `rLong`/`stLong`. -/
def c7_claimed_truncation : Prop :=
  ∀ (r : RULE) (st : St), r.module ≠ root_module →
    4096 < (st.moduleName r.module).length + r.name.length →
    (global_rule_name r st).length ≤ 4096

/-- Counterexample to C7's truncation clause: with a 3000-character
module name and a 3000-character rule name, the combined name (6000
characters) exceeds the 4096-byte buffer, yet `global_rule_name`
produces all 6000 characters — each `strncat` call truncates its own
argument at 4095 characters, and nothing truncates the combined result
(in C this writes past the fixed buffer). -/
theorem c7_truncation_counterexample : ¬c7_claimed_truncation := by
  intro hcl
  have hmod : stLong.moduleName rLong.module = List.replicate 3000 'a' := rfl
  have hname : global_rule_name rLong stLong =
      List.take 4095 (List.replicate 3000 'a') ++
        List.take 4095 (List.replicate 3000 'b') := rfl
  have hlen : (global_rule_name rLong stLong).length = 6000 := by
    rw [hname]
    simp only [List.length_append, List.length_take, List.length_replicate]
    omega
  have hrn : rLong.name.length = 3000 := by
    show (List.replicate 3000 'b').length = 3000
    simp only [List.length_replicate]
  have hsum : 4096 < (stLong.moduleName rLong.module).length + rLong.name.length := by
    rw [hmod, hrn]
    simp only [List.length_replicate]
    omega
  have hfin := hcl rLong stLong (by decide) hsum
  rw [hlen] at hfin
  omega

/-- Amended C7: the qualified name is the rule's own name in the root
module, else the module name followed by the rule name, deterministic
and collision-sensitive (two distinct modules whose concatenations
coincide alias to one global slot); but the fixed-size buffer truncates
each *component* at 4095 characters separately, so a combined name
exceeding the buffer with both components within 4095 characters is
produced in full (in C, written past the buffer), not truncated. -/
theorem c7_qualified_name_corrected :
    (∀ (r : RULE) (st : St), r.module = root_module → global_rule_name r st = r.name) ∧
    (∀ (r : RULE) (st : St), r.module ≠ root_module →
      (global_rule_name r st).length =
        min 4095 (st.moduleName r.module).length + min 4095 r.name.length) ∧
    (∀ (r : RULE) (st : St), r.module ≠ root_module →
      (st.moduleName r.module).length ≤ 4095 → r.name.length ≤ 4095 →
      global_rule_name r st = st.moduleName r.module ++ r.name) ∧
    (global_rule_name rAlias1 stAlias = global_rule_name rAlias2 stAlias ∧
     rAlias1.module ≠ rAlias2.module ∧
     (global_rule rAlias1 stAlias).1 = (global_rule rAlias2 stAlias).1) := by
  refine ⟨?_, ?_, ?_, ?_, ?_, ?_⟩
  · intro r st h
    simp [global_rule_name, h]
  · intro r st h
    simp [global_rule_name, strncat, h, List.length_take]
  · intro r st h h1 h2
    simp [global_rule_name, strncat, h, List.take_of_length_le h1, List.take_of_length_le h2]
  · decide
  · decide
  · rfl

/-- Witness for the amended C7: module `"ab"` and rule `"c"` produce the
full qualified name `"abc"` — the in-bounds case concatenates without
truncation. -/
theorem c7_qualified_name_corrected_witness :
    global_rule_name rAlias1 stAlias = stAlias.moduleName rAlias1.module ++ rAlias1.name :=
  c7_qualified_name_corrected.2.2.1 rAlias1 stAlias (by decide) (by decide) (by decide)

theorem settings_find_eq_none {l : List SETTINGS} {s : String}
    (h : s ∉ l.map SETTINGS.symbol) : settings_find l s = none := by
  induction l with
  | nil => rfl
  | cons v rest ih =>
      simp only [List.map_cons, List.mem_cons, not_or] at h
      simp only [settings_find, if_neg (Ne.symm h.1)]
      exact ih h.2

theorem settings_find_mem {l : List SETTINGS} {s : String}
    (h : s ∈ l.map SETTINGS.symbol) : ∃ v, settings_find l s = some v := by
  induction l with
  | nil => simp at h
  | cons v rest ih =>
      simp only [List.map_cons, List.mem_cons] at h
      by_cases hv : v.symbol = s
      · exact ⟨v, by simp [settings_find, hv]⟩
      · obtain ⟨w, hw⟩ := ih (h.resolve_left (fun he => hv he.symm))
        exact ⟨w, by simp [settings_find, hv, hw]⟩

theorem settings_update_first_map_symbol (l : List SETTINGS) (s : String)
    (f : List String → List String) :
    (settings_update_first l s f).map SETTINGS.symbol = l.map SETTINGS.symbol := by
  induction l with
  | nil => rfl
  | cons v rest ih =>
      by_cases hv : v.symbol = s
      · simp [settings_update_first, hv]
      · simp [settings_update_first, hv, ih]

theorem settings_find_update_first_self (l : List SETTINGS) (s : String)
    (f : List String → List String) :
    settings_find (settings_update_first l s f) s =
      (settings_find l s).map (fun v => { v with value := f v.value }) := by
  induction l with
  | nil => rfl
  | cons v rest ih =>
      by_cases hv : v.symbol = s
      · simp [settings_update_first, settings_find, hv]
      · simp [settings_update_first, settings_find, hv, ih]

theorem settings_find_update_first_ne (l : List SETTINGS) (s : String)
    (f : List String → List String) {x : String} (hx : x ≠ s) :
    settings_find (settings_update_first l s f) x = settings_find l x := by
  induction l with
  | nil => rfl
  | cons v rest ih =>
      by_cases hv : v.symbol = s
      · have hvx : v.symbol ≠ x := by
          rw [hv]
          exact Ne.symm hx
        have hsx : s ≠ x := Ne.symm hx
        simp [settings_update_first, settings_find, hv, hvx, hsx]
      · by_cases hvx : v.symbol = x
        · simp [settings_update_first, settings_find, hv, hvx, hx]
        · simp [settings_update_first, settings_find, hv, hvx, ih]

/-- Claim C6: on a symbol already present, `addsettings` with
`append_mode = false` installs exactly the new value (no element of the
old survives) in place, and with `append_mode = true` installs the old
elements followed by the new; in both cases the allocator state, the
other symbols' values and the chain's symbol list are untouched.  On an
absent symbol it allocates a node — from the free list when that is
non-empty, else a fresh one — links it as the new head, and symbols
stay pairwise distinct. -/
theorem c6_addsettings_replace_append_insert (st : SetSt) (head : List SETTINGS)
    (symbol : String) (value : List String) :
    (∀ v, settings_find head symbol = some v →
      (addsettings st head false symbol value).1 = st ∧
      settings_find (addsettings st head false symbol value).2 symbol =
        some { v with value := value } ∧
      (addsettings st head true symbol value).1 = st ∧
      settings_find (addsettings st head true symbol value).2 symbol =
        some { v with value := list_append v.value value } ∧
      (∀ b x, x ≠ symbol →
        settings_find (addsettings st head b symbol value).2 x = settings_find head x) ∧
      (∀ b, (addsettings st head b symbol value).2.map SETTINGS.symbol =
        head.map SETTINGS.symbol)) ∧
    (symbol ∉ head.map SETTINGS.symbol →
      (∀ b, ∀ i rest, st.settings_freelist = i :: rest →
        addsettings st head b symbol value =
          ({ settings_freelist := rest, nextId := st.nextId },
           { id := i, symbol := symbol, value := value } :: head)) ∧
      (∀ b, st.settings_freelist = [] →
        addsettings st head b symbol value =
          ({ settings_freelist := [], nextId := st.nextId + 1 },
           { id := st.nextId, symbol := symbol, value := value } :: head))) ∧
    ((head.map SETTINGS.symbol).Nodup → ∀ b,
      ((addsettings st head b symbol value).2.map SETTINGS.symbol).Nodup) := by
  refine ⟨?_, ?_, ?_⟩
  · intro v hv
    refine ⟨?_, ?_, ?_, ?_, ?_, ?_⟩
    · unfold addsettings
      rw [hv]
      rfl
    · unfold addsettings
      rw [hv]
      show settings_find (settings_update_first head symbol (fun _ => value)) symbol = _
      rw [settings_find_update_first_self, hv]
      rfl
    · unfold addsettings
      rw [hv]
      rfl
    · unfold addsettings
      rw [hv]
      show settings_find
        (settings_update_first head symbol (fun old => list_append old value)) symbol = _
      rw [settings_find_update_first_self, hv]
      rfl
    · intro b x hx
      unfold addsettings
      rw [hv]
      cases b with
      | false =>
          show settings_find (settings_update_first head symbol (fun _ => value)) x = _
          exact settings_find_update_first_ne _ _ _ hx
      | true =>
          show settings_find
            (settings_update_first head symbol (fun old => list_append old value)) x = _
          exact settings_find_update_first_ne _ _ _ hx
    · intro b
      unfold addsettings
      rw [hv]
      cases b with
      | false => exact settings_update_first_map_symbol _ _ _
      | true => exact settings_update_first_map_symbol _ _ _
  · intro habs
    constructor
    · intro b i rest hfl
      unfold addsettings
      rw [settings_find_eq_none habs, hfl]
    · intro b hfl
      unfold addsettings
      rw [settings_find_eq_none habs, hfl]
  · intro hnd b
    by_cases hmem : symbol ∈ head.map SETTINGS.symbol
    · obtain ⟨v, hv⟩ := settings_find_mem hmem
      unfold addsettings
      rw [hv]
      cases b with
      | false =>
          show ((settings_update_first head symbol (fun _ => value)).map
            SETTINGS.symbol).Nodup
          rw [settings_update_first_map_symbol]
          exact hnd
      | true =>
          show ((settings_update_first head symbol
            (fun old => list_append old value)).map SETTINGS.symbol).Nodup
          rw [settings_update_first_map_symbol]
          exact hnd
    · unfold addsettings
      rw [settings_find_eq_none hmem]
      cases hfl : st.settings_freelist with
      | nil =>
          simp only [List.map_cons, List.nodup_cons]
          exact ⟨hmem, hnd⟩
      | cons i rest =>
          simp only [List.map_cons, List.nodup_cons]
          exact ⟨hmem, hnd⟩

/-- Witness for C6: replacing, appending and inserting on concrete
chains; the spec's own scenario `addsettings(nil, false, "X", ["1"])`
then `addsettings(head, true, "X", ["2"])` yields one node with value
`["1", "2"]`, and an insert with a non-empty free list reuses node 9. -/
theorem c6_addsettings_replace_append_insert_witness :
    settings_find (addsettings ⟨[9], 3⟩ [⟨5, "X", ["1"]⟩] false "X" ["2"]).2 "X" =
      some ⟨5, "X", ["2"]⟩ ∧
    settings_find (addsettings ⟨[9], 3⟩ [⟨5, "X", ["1"]⟩] true "X" ["2"]).2 "X" =
      some ⟨5, "X", ["1", "2"]⟩ ∧
    addsettings ⟨[9], 3⟩ [⟨5, "X", ["1"]⟩] false "Y" ["7"] =
      (⟨[], 3⟩, [⟨9, "Y", ["7"]⟩, ⟨5, "X", ["1"]⟩]) ∧
    (addsettings (addsettings ⟨[], 0⟩ [] false "X" ["1"]).1
        (addsettings ⟨[], 0⟩ [] false "X" ["1"]).2 true "X" ["2"]).2 =
      [⟨0, "X", ["1", "2"]⟩] := by
  have h := c6_addsettings_replace_append_insert ⟨[9], 3⟩ [⟨5, "X", ["1"]⟩] "X" ["2"]
  have hrep := h.1 ⟨5, "X", ["1"]⟩ rfl
  have h2 := c6_addsettings_replace_append_insert ⟨[9], 3⟩ [⟨5, "X", ["1"]⟩] "Y" ["7"]
  refine ⟨hrep.2.1, hrep.2.2.2.1, ?_, ?_⟩
  · exact (h2.2.1 (by decide)).1 false 9 [] rfl
  · have h3 := c6_addsettings_replace_append_insert ⟨[], 0⟩ [] "X" ["1"]
    have hins := (h3.2.1 (by decide)).2 false rfl
    rw [hins]
    rfl

/-- Witness for C9 at `st1`: the root module carries `['r']` with
procedure 7; binding `['r']` in module 1 returns that record, procedure
and all — a caller cannot take a null procedure as the absence signal
here. -/
theorem c9_bindrule_fallback_existing_witness :
    bindrule ['r'] 1 st1 =
      ({ name := ['r'], module := 0, procedure := some 7, arguments := none,
         actions := none, exported := false }, st1) ∧
    (bindrule ['r'] 1 st1).1.procedure = some 7 :=
  c9_bindrule_fallback_existing (by rfl) (by rfl)
